import Mathlib

/-!
Verification development for the DomoticsCore WebUI asset embedding pipeline
(`DomoticsCore-WebUI/embed_webui.py`).  The Python source is shallowly
embedded: strings become `List Char`, byte strings become `List Nat`
(each entry one byte), and the `re.sub` calls of the minifiers are
embedded as the specific left-to-right scan-and-replace text
transformations that those fixed patterns perform.
-/

namespace EmbedWebui

/-- Characters that are awkward for the surrounding tooling are spelled
by code point: left brace. -/
def lbrace : Char := Char.ofNat 123

/-- Right brace. -/
def rbrace : Char := Char.ofNat 125

/-- Backtick, the third JS string delimiter. -/
def btick : Char := Char.ofNat 96

/-- Single quote. -/
def squote : Char := Char.ofNat 39

/-- Double quote. -/
def dquote : Char := Char.ofNat 34

/-- Backslash. -/
def bslash : Char := Char.ofNat 92

/-- Python regex `\s` over the ASCII range (space, tab, newline, carriage
return, vertical tab, form feed); also the set stripped by `str.strip()`. -/
def isWs (c : Char) : Bool :=
  c = ' ' || c = '\t' || c = '\n' || c = '\r' || c = Char.ofNat 11 || c = Char.ofNat 12

/-- Python regex `\w` over the ASCII range: letters, digits, underscore. -/
def isWordChar (c : Char) : Bool :=
  c.isAlphanum || c = '_'

/-- The punctuation set of the first JS cleanup pass,
`[{}\[\];:,<>=+\-*/%&|^!?()]` (embed_webui.py line 92). -/
def jsPunct (c : Char) : Bool :=
  [lbrace, rbrace, '[', ']', ';', ':', ',', '<', '>', '=', '+', '-',
   '*', '/', '%', '&', '|', '^', '!', '?', '(', ')'].contains c

/-- The punctuation set of the CSS symbol pass, `[{};:,>~+]`
(embed_webui.py line 105). -/
def cssPunct (c : Char) : Bool :=
  [lbrace, rbrace, ';', ':', ',', '>', '~', '+'].contains c

/-! ## The JS tokenizing pass (embed_webui.py lines 17-89)

The Python `while i < len(content)` loop over character indices, with its
four states (normal / inside a string with remembered delimiter / line
comment / block comment), is embedded as a fuel-indexed loop over the
same index `i`.  `none` means the fuel ran out; `tokLoop_some`
below proves that `length + 1` fuel always suffices, which is the
termination argument for the Python loop. -/

/-- The state of the tokenizing pass: `in_string` (with delimiter),
`in_single_comment`, `in_multi_comment`, or none of those. -/
inductive JsState where
  | normal : JsState
  | inStr : Char → JsState
  | lineComment : JsState
  | blockComment : JsState
deriving DecidableEq

/-- `result and result[-1] not in excluded` (lines 75 and 81). -/
def lastNotIn (result : List Char) (excluded : List Char) : Bool :=
  match result.getLast? with
  | none => false
  | some c => !(excluded.contains c)

/-- One-to-one embedding of the tokenizing loop body of `minify_js`.
`i` is the character index, `st` the comment/string state, `result` the
output buffer. -/
def tokLoop (content : List Char) : Nat → Nat → JsState → List Char → Option (List Char)
  | 0, _, _, _ => none
  | fuel + 1, i, st, result =>
    match content.get? i with
    | none => some result
    | some c =>
      let nextC := content.get? (i + 1)
      match st with
      | JsState.inStr d =>
        if c = bslash then
          -- append the backslash and the escaped character unconditionally
          tokLoop content fuel (i + 2) (JsState.inStr d)
            (result ++ [c] ++ (content.get? (i + 1)).toList)
        else if c = d then
          tokLoop content fuel (i + 1) JsState.normal (result ++ [c])
        else
          tokLoop content fuel (i + 1) (JsState.inStr d) (result ++ [c])
      | JsState.lineComment =>
        if c = '\n' then
          tokLoop content fuel (i + 1) JsState.normal (result ++ ['\n'])
        else
          tokLoop content fuel (i + 1) JsState.lineComment result
      | JsState.blockComment =>
        if c = '*' ∧ nextC = some '/' then
          tokLoop content fuel (i + 2) JsState.normal result
        else
          tokLoop content fuel (i + 1) JsState.blockComment result
      | JsState.normal =>
        if c = '/' ∧ nextC = some '/' then
          tokLoop content fuel (i + 2) JsState.lineComment result
        else if c = '/' ∧ nextC = some '*' then
          tokLoop content fuel (i + 2) JsState.blockComment result
        else if c = dquote ∨ c = squote ∨ c = btick then
          tokLoop content fuel (i + 1) (JsState.inStr c) (result ++ [c])
        else if c = ' ' ∨ c = '\t' then
          if lastNotIn result [' ', '\t', '\n'] then
            tokLoop content fuel (i + 1) JsState.normal (result ++ [' '])
          else
            tokLoop content fuel (i + 1) JsState.normal result
        else if c = '\n' then
          if lastNotIn result ['\n', ' '] then
            tokLoop content fuel (i + 1) JsState.normal (result ++ ['\n'])
          else
            tokLoop content fuel (i + 1) JsState.normal result
        else
          tokLoop content fuel (i + 1) JsState.normal (result ++ [c])

/-- The tokenizing pass of `minify_js`, started in the normal state at
index 0 with fuel `length + 1`. -/
def js_tokenize (content : String) : Option (List Char) :=
  tokLoop content.data (content.data.length + 1) 0 JsState.normal []

/-! ## JS normalization passes (embed_webui.py lines 92-96) -/

/-- Embedding of `re.sub(r'\s*(P)\s*', r'\1', text)` for a punctuation
class `P` containing no whitespace.  The scan is left to right: a
whitespace run is buffered in `buf`; if the first non-whitespace
character after it is punctuation the run is dropped and the
punctuation emitted (the match), otherwise the run is emitted verbatim
(no match can start inside it).  `afterP` records that the previous
match's trailing `\s*` is still consuming whitespace. -/
def subPunct (isP : Char → Bool) : Bool → List Char → List Char → List Char
  | afterP, buf, [] => if afterP then [] else buf
  | afterP, buf, c :: rest =>
    if isWs c then subPunct isP afterP (buf ++ [c]) rest
    else if isP c then c :: subPunct isP true [] rest
    else (if afterP then [] else buf) ++ c :: subPunct isP false [] rest

/-- The reserved-word alternation of embed_webui.py line 94, in source
order.  No listed word is a prefix of another, so at any position at
most one alternative can match. -/
def kwList : List (List Char) :=
  ["return", "typeof", "new", "delete", "throw", "in", "of", "const", "let",
   "var", "if", "else", "for", "while", "do", "switch", "case", "break",
   "continue", "function", "class", "extends", "async", "await",
   "yield", "import", "export", "from", "default"].map String.data

/-- Embedding of `re.sub(r'\b(KW)\b([^\s\w])', r'\1 \2', text)`
(line 94).  `run` buffers the current maximal word-character run; the
leading `\b` means a keyword can only match a whole such run, and the
trailing `\b([^\s\w])` requires the next character to be neither
whitespace nor a word character, in which case one space is inserted. -/
def subKeyword : List Char → List Char → List Char
  | run, [] => run
  | run, c :: rest =>
    if isWordChar c then subKeyword (run ++ [c]) rest
    else if kwList.contains run ∧ !(isWs c) then
      run ++ [' ', c] ++ subKeyword [] rest
    else
      run ++ c :: subKeyword [] rest

/-- Embedding of `re.sub(r'\n+', '\n', text)` (line 95): a run of
newlines collapses to a single newline. -/
def subNewlines : List Char → List Char
  | [] => []
  | [c] => [c]
  | c :: c2 :: rest =>
    if c = '\n' ∧ c2 = '\n' then subNewlines (c2 :: rest)
    else c :: subNewlines (c2 :: rest)

/-- Python `str.strip()` (over the ASCII whitespace the pipeline can
produce). -/
def pyStrip (l : List Char) : List Char :=
  ((l.dropWhile isWs).reverse.dropWhile isWs).reverse

/-- `pat` occurs as a contiguous subsequence of the list (Python's
`in` on strings). -/
def hasInfix (pat : List Char) : List Char → Bool
  | [] => pat.isEmpty
  | c :: rest => pat.isPrefixOf (c :: rest) || hasInfix pat rest

/-- `minify_js` (embed_webui.py lines 12-96): the tokenizing pass, then
the punctuation pass, the keyword-respacing pass, the newline collapse,
and the final strip.  `none` only if the tokenizing loop's fuel ran out,
which `minify_js_never_raises` below rules out. -/
def minify_js (content : String) : Option String :=
  (js_tokenize content).map fun t =>
    String.mk (pyStrip (subNewlines (subKeyword [] (subPunct jsPunct false [] t))))

/-! ## `minify_css` (embed_webui.py lines 98-114) -/

/-- Scan for the first `*/` and return what follows it (the non-greedy
`.*?\*/` of the comment pattern). -/
def afterCssClose : List Char → Option (List Char)
  | '*' :: '/' :: rest => some rest
  | _ :: rest => afterCssClose rest
  | [] => none

/-- Embedding of `re.sub(r'/\*.*?\*/', '', content, flags=re.DOTALL)`
(line 103): each `/*` with a later `*/` is removed together with the
span between them; a `/*` with no closing `*/` does not match and
passes through.  Fueled (one unit per consumed character); `length + 1`
fuel can never run out, and the fallback returns the rest unchanged. -/
def stripCssComments (fuel : Nat) (l : List Char) : List Char :=
  match fuel, l with
  | 0, l => l
  | _ + 1, [] => []
  | fuel + 1, '/' :: '*' :: rest =>
    match afterCssClose rest with
    | some rest2 => stripCssComments fuel rest2
    | none => '/' :: stripCssComments fuel ('*' :: rest)
  | fuel + 1, c :: rest => c :: stripCssComments fuel rest

/-- Embedding of `re.sub(r'\s+', ' ', content)` (line 107): every
maximal whitespace run becomes one space. -/
def collapseWs : List Char → List Char
  | [] => []
  | [c] => if isWs c then [' '] else [c]
  | c :: c2 :: rest =>
    if isWs c then
      if isWs c2 then collapseWs (c2 :: rest)
      else ' ' :: collapseWs (c2 :: rest)
    else c :: collapseWs (c2 :: rest)

/-- Embedding of `re.sub(r';}', '}', content)` (line 111): each
non-overlapping occurrence of `;` directly before a closing brace loses
the semicolon; the scan continues after the replaced brace. -/
def subSemiBrace : List Char → List Char
  | [] => []
  | [c] => [c]
  | c :: c2 :: rest =>
    if c = ';' ∧ c2 = rbrace then rbrace :: subSemiBrace rest
    else c :: subSemiBrace (c2 :: rest)

/-- `minify_css` (lines 98-114): strip comments, remove whitespace
around the CSS symbol set, collapse whitespace, remove whitespace
around an opening brace (`\s*{\s*` is `subPunct` for the single
character class containing the brace), drop semicolons before closing
braces, drop the remaining newlines, strip. -/
def minify_css (content : String) : String :=
  let t := stripCssComments (content.data.length + 1) content.data
  let t := subPunct cssPunct false [] t
  let t := collapseWs t
  let t := subPunct (fun c => c = lbrace) false [] t
  let t := subSemiBrace t
  let t := t.filter (fun c => c ≠ '\n')
  String.mk (pyStrip t)

/-! ## `minify_html` (embed_webui.py lines 116-126) -/

/-- Scan for the first `-->` and return what follows it (the non-greedy
`.*?-->` of the HTML comment pattern). -/
def afterHtmlClose : List Char → Option (List Char)
  | '-' :: '-' :: '>' :: rest => some rest
  | _ :: rest => afterHtmlClose rest
  | [] => none

/-- Embedding of `re.sub(r'<!--(?!\[).*?-->', '', content,
flags=re.DOTALL)` (line 121): a `<!--` that is not directly followed by
`[` and has a later `-->` is removed with everything between; a
conditional comment (`<!--[`) or an unterminated comment passes
through, the scan resuming one character later.  Fueled like
`stripCssComments`. -/
def stripHtmlComments (fuel : Nat) (l : List Char) : List Char :=
  match fuel, l with
  | 0, l => l
  | _ + 1, [] => []
  | fuel + 1, '<' :: '!' :: '-' :: '-' :: rest =>
    if (match rest with | '[' :: _ => true | _ => false) then
      '<' :: stripHtmlComments fuel ('!' :: '-' :: '-' :: rest)
    else
      match afterHtmlClose rest with
      | some rest2 => stripHtmlComments fuel rest2
      | none => '<' :: stripHtmlComments fuel ('!' :: '-' :: '-' :: rest)
  | fuel + 1, c :: rest => c :: stripHtmlComments fuel rest

/-- Embedding of `re.sub(r'>\s+<', '><', content)` (line 123): a `>`
followed by at least one whitespace character and then `<` becomes
`><`; the whitespace run is buffered in `buf` while it is still unknown
whether a `<` follows. -/
def collapseBetweenTags : Bool → List Char → List Char → List Char
  | _, buf, [] => buf
  | pending, buf, c :: rest =>
    if pending ∧ isWs c then collapseBetweenTags true (buf ++ [c]) rest
    else if pending ∧ c = '<' ∧ buf ≠ [] then '<' :: collapseBetweenTags false [] rest
    else if c = '>' then buf ++ '>' :: collapseBetweenTags true [] rest
    else buf ++ c :: collapseBetweenTags false [] rest

/-- `minify_html` (lines 116-126): remove non-conditional comments,
remove whitespace between a closing and an opening tag, collapse
whitespace runs, strip. -/
def minify_html (content : String) : String :=
  let t := stripHtmlComments (content.data.length + 1) content.data
  let t := collapseBetweenTags false [] t
  let t := collapseWs t
  String.mk (pyStrip t)

/-! ## The compressor (embed_webui.py line 330: `gzip.compress(minified_bytes, compresslevel=9)`)

The pipeline's compressor is CPython's `gzip.compress`.  Its container
layout is embedded faithfully from the CPython `gzip` module: a 10-byte
header `1f 8b 08 00 <MTIME, 4 bytes little endian> <XFL> ff` where
`_create_simple_gzip_header` fills MTIME with `int(time.time())`
because `embed_webui.py` passes no `mtime`, followed by a DEFLATE body,
followed by `struct.pack("<LL", crc32(data), len(data) & 0xffffffff)`.
The clock that CPython reads is made an explicit `mtime` argument here.

Modelled from the spec: the DEFLATE body itself is produced by zlib,
which is outside this repository; per spec §4.5 the body only has to be
a deterministic lossless stream inside a standard-decodable container,
so it is modelled with DEFLATE *stored blocks* (65535-byte chunks)
rather than zlib's level-9 entropy coding. -/

/-- Four-byte little-endian encoding of `n mod 2^32`
(`struct.pack("<L", n)`). -/
def le32 (n : Nat) : List Nat :=
  [n % 256, n / 256 % 256, n / 65536 % 256, n / 16777216 % 256]

/-- One step of CRC-32 (the zlib/`binascii.crc32` polynomial
`0xEDB88320`, reflected): fold one byte into the running register. -/
def crc32Byte (crc byte : Nat) : Nat :=
  Nat.iterate (fun c => if c % 2 = 1 then (c / 2) ^^^ 0xEDB88320 else c / 2)
    8 (crc ^^^ byte % 256)

/-- `zlib.crc32(data)`: init `0xFFFFFFFF`, per-byte folds, final
complement. -/
def crc32 (data : List Nat) : Nat :=
  (data.foldl crc32Byte 0xFFFFFFFF) ^^^ 0xFFFFFFFF

/-- CPython `gzip._create_simple_gzip_header(compresslevel, mtime)`:
magic bytes, deflate method, empty flags, MTIME, XFL (2 for level 9,
4 for level 1, else 0), unknown OS. -/
def createGzipHeader (compresslevel mtime : Nat) : List Nat :=
  [31, 139, 8, 0] ++ le32 mtime ++
    [if compresslevel = 9 then 2 else if compresslevel = 1 then 4 else 0, 255]

/-- Modelled from the spec: the zlib DEFLATE body, as stored blocks.
Each block is `B len_lo len_hi nlen_lo nlen_hi` followed by up to 65535
verbatim bytes, `B = 1` marking the final block (RFC 1951 §3.2.4). -/
def deflateStored (x : List Nat) : List Nat :=
  if h : (x.drop 65535).isEmpty then
    [1, (x.take 65535).length % 256, (x.take 65535).length / 256,
     255 - (x.take 65535).length % 256, 255 - (x.take 65535).length / 256] ++ x.take 65535
  else
    [0, 255, 255, 0, 0] ++ (x.take 65535 ++ deflateStored (x.drop 65535))
termination_by x.length
decreasing_by
  simp only [List.isEmpty_iff, ← List.length_pos_iff_ne_nil, List.length_drop] at h
  simp only [List.length_drop]
  omega

/-- `gzip.compress(data, compresslevel=9)` as called on line 330, with
the wall-clock second CPython would read made explicit as `mtime`. -/
def gzip_compress (mtime : Nat) (data : List Nat) : List Nat :=
  createGzipHeader 9 (mtime % 4294967296) ++
    (deflateStored data ++ (le32 (crc32 data) ++ le32 (data.length % 4294967296)))

/-- Modelled from the spec: a standard decoder for the stored-block
DEFLATE stream, returning the payload and the bytes after the final
block.  Fueled (one unit per block; each block consumes at least five
bytes, so the `length + 1` fuel `gunzip` passes always suffices). -/
def inflateStored : Nat → List Nat → Option (List Nat × List Nat)
  | 0, _ => none
  | fuel + 1, b :: l1 :: l2 :: n1 :: n2 :: rest =>
    if (b = 0 ∨ b = 1) ∧ n1 = 255 - l1 ∧ n2 = 255 - l2 ∧ l1 + 256 * l2 ≤ rest.length then
      if b = 1 then some (rest.take (l1 + 256 * l2), rest.drop (l1 + 256 * l2))
      else
        match inflateStored fuel (rest.drop (l1 + 256 * l2)) with
        | some (more, fin) => some (rest.take (l1 + 256 * l2) ++ more, fin)
        | none => none
    else none
  | _ + 1, _ => none

/-- Modelled from the spec: a standard gzip decoder (the "minimal
decoder" of §4.5) for the containers `gzip_compress` emits: check the
magic bytes, method and flags, skip MTIME/XFL/OS, inflate, then verify
the CRC-32 and length trailer. -/
def gunzip : List Nat → Option (List Nat)
  | 31 :: 139 :: 8 :: 0 :: _ :: _ :: _ :: _ :: _ :: _ :: rest =>
    match inflateStored (rest.length + 1) rest with
    | some (payload, [c0, c1, c2, c3, s0, s1, s2, s3]) =>
      if [c0, c1, c2, c3] = le32 (crc32 payload) ∧
         [s0, s1, s2, s3] = le32 (payload.length % 4294967296) then
        some payload
      else none
    | _ => none
  | _ => none

/-! ## The per-asset pipeline (embed_webui.py lines 291-340) -/

/-- Python `str.encode('utf-8')` on one character. -/
def utf8Char (c : Char) : List Nat :=
  let n := c.toNat
  if n < 128 then [n]
  else if n < 2048 then [192 + n / 64, 128 + n % 64]
  else if n < 65536 then [224 + n / 4096, 128 + n / 64 % 64, 128 + n % 64]
  else [240 + n / 262144, 128 + n / 4096 % 64, 128 + n / 64 % 64, 128 + n % 64]

/-- Python `str.encode('utf-8')`. -/
def utf8Encode (s : String) : List Nat :=
  (s.data.map utf8Char).flatten

/-- Python `str.endswith(suffix)`. -/
def strEndsWith (s suffix : String) : Bool :=
  suffix.data.isSuffixOf s.data

/-- Lowercase hexadecimal digit. -/
def hexDigit (n : Nat) : Char :=
  if n < 10 then Char.ofNat (48 + n) else Char.ofNat (87 + n)

/-- Hexadecimal digits of `n`, most significant first (fueled division
loop; `fuel = n + 1` always suffices). -/
def hexCore : Nat → Nat → List Char → List Char
  | 0, _, acc => acc
  | fuel + 1, n, acc =>
    if n = 0 then acc else hexCore fuel (n / 16) (hexDigit (n % 16) :: acc)

/-- Python `f"0x{b:02x}"`: lowercase hex, zero-padded to two digits. -/
def hexByte (b : Nat) : String :=
  let ds := hexCore (b + 1) b []
  let ds := if ds.length = 0 then ['0', '0'] else if ds.length = 1 then '0' :: ds else ds
  String.mk ('0' :: 'x' :: ds)

/-- The line-chunking loop of `to_c_array` (lines 295-302): append hex
tokens to the current line, flushing a line after every 16th token, and
flush a non-empty remainder at the end. -/
def chunkLoop (line : List String) (cnt : Nat) : List String → List (List String)
  | [] => if line = [] then [] else [line]
  | hb :: rest =>
    if (cnt + 1) % 16 = 0 then (line ++ [hb]) :: chunkLoop [] (cnt + 1) rest
    else chunkLoop (line ++ [hb]) (cnt + 1) rest

/-- `to_c_array` (lines 291-304): comma-separated hex bytes, 16 per
line, lines joined with a comma, newline and 8-space indent. -/
def to_c_array (data : List Nat) : String :=
  String.intercalate ",\n        " ((chunkLoop [] 0 (data.map hexByte)).map (String.intercalate ", "))

/-- `process_asset` (lines 306-332) minus the file read: dispatch on
the filename suffix, minify, UTF-8 encode, gzip.  Returns
`(original_size, minified_size, gzipped)`; `none` only on tokenizer
fuel exhaustion inside `minify_js`. -/
def process_asset (mtime : Nat) (filename : String) (raw_content : String) :
    Option (Nat × Nat × List Nat) :=
  let original_size := (utf8Encode raw_content).length
  let minifiedOpt :=
    if strEndsWith filename ".js" then minify_js raw_content
    else if strEndsWith filename ".css" then some (minify_css raw_content)
    else if strEndsWith filename ".html" then some (minify_html raw_content)
    else some raw_content
  minifiedOpt.map fun minified =>
    let minified_bytes := utf8Encode minified
    (original_size, minified_bytes.length, gzip_compress mtime minified_bytes)

/-! ## Artifact assembly (embed_webui.py lines 334-372) -/

/-- One entry of the asset registry: the `(filename, symbol)` pairs of
the `assets` list together with the file's text content. -/
structure AssetEntry where
  filename : String
  sym : String
  content : String

/-- The `processed_assets` dict: filename to
`(sym, original_size, minified_size, gzipped)`, with Python's
overwrite-on-reassignment semantics. -/
def ProcDict := String → Option (String × Nat × Nat × List Nat)

/-- The processing loop of lines 335-338, building `processed_assets`. -/
def buildProcessed (mtime : Nat) (d : ProcDict) : List AssetEntry → Option ProcDict
  | [] => some d
  | e :: rest =>
    match process_asset mtime e.filename e.content with
    | none => none
    | some (o, m, g) =>
      buildProcessed mtime
        (fun k => if k = e.filename then some (e.sym, o, m, g) else d k) rest

/-- Lines 342-347. -/
def headerPreamble : List String :=
  ["#pragma once", "#include <Arduino.h>", "",
   "// Auto-generated by embed_webui.py. DO NOT EDIT MANUALLY."]

/-- The declaration loop of lines 350-355: for each registry entry in
order, a blank line, the size-telemetry comment and the two `extern`
declarations, with the record taken from `processed_assets[filename]`
(`none` on a missing key, Python's `KeyError`). -/
def genDecls (d : ProcDict) : List AssetEntry → Option (List String)
  | [] => some []
  | e :: rest =>
    match d e.filename with
    | none => none
    | some (sym, o, m, g) =>
      (genDecls d rest).map fun ls =>
        ["", "// " ++ e.filename ++ ": original " ++ toString o ++ " -> minified "
            ++ toString m ++ " -> gzip " ++ toString g.length ++ " bytes",
         "extern const uint8_t " ++ sym ++ "[] PROGMEM;",
         "extern const size_t " ++ sym ++ "_LEN;"] ++ ls

/-- The definition loop of lines 361-367. -/
def genDefs (d : ProcDict) : List AssetEntry → Option (List String)
  | [] => some []
  | e :: rest =>
    match d e.filename with
    | none => none
    | some (sym, _o, _m, g) =>
      (genDefs d rest).map fun ls =>
        ["", "const uint8_t " ++ sym ++ "[] PROGMEM = \x7b",
         "        " ++ to_c_array g,
         "\x7d;",
         "const size_t " ++ sym ++ "_LEN = sizeof(" ++ sym ++ ");"] ++ ls

/-- Lines 334-369: process every asset, then assemble `header_lines`:
preamble, declarations in registry order, the definitions marker, and
definitions in registry order. -/
def generate_header (mtime : Nat) (registry : List AssetEntry) : Option (List String) := do
  let d ← buildProcessed mtime (fun _ => none) registry
  let decls ← genDecls d registry
  let defs ← genDefs d registry
  pure (headerPreamble ++ decls ++ ["", "// Definitions"] ++ defs)

/-- The declaration block `header_registry_order` proves each registry
entry contributes, expressed directly from `process_asset`. -/
def declBlock (mtime : Nat) (e : AssetEntry) : List String :=
  match process_asset mtime e.filename e.content with
  | none => []
  | some (o, m, g) =>
    ["", "// " ++ e.filename ++ ": original " ++ toString o ++ " -> minified "
        ++ toString m ++ " -> gzip " ++ toString g.length ++ " bytes",
     "extern const uint8_t " ++ e.sym ++ "[] PROGMEM;",
     "extern const size_t " ++ e.sym ++ "_LEN;"]

/-- The definition block of one registry entry, expressed directly from
`process_asset`. -/
def defBlock (mtime : Nat) (e : AssetEntry) : List String :=
  match process_asset mtime e.filename e.content with
  | none => []
  | some (_o, _m, g) =>
    ["", "const uint8_t " ++ e.sym ++ "[] PROGMEM = \x7b",
     "        " ++ to_c_array g,
     "\x7d;",
     "const size_t " ++ e.sym ++ "_LEN = sizeof(" ++ e.sym ++ ");"]

/-! ## The destination write loop (embed_webui.py lines 369-372)

`for header_path in out_header_paths: header_path.write_text(out_text)`
with no surrounding `try`: a failing write raises and aborts the run.
The filesystem is modelled by a per-path success predicate `wOk` and
the accumulated list of performed writes; a raised exception becomes
`Except.error` carrying the failing path and the writes performed
before it. -/
def writeLoop (wOk : String → Bool) (out_text : String)
    (written : List (String × String)) :
    List String → Except (String × List (String × String)) (List (String × String))
  | [] => Except.ok written
  | p :: rest =>
    if wOk p then writeLoop wOk out_text (written ++ [(p, out_text)]) rest
    else Except.error (p, written)

/-! ## Helper lemmas -/

/-- Every iteration of the tokenizing loop advances the index, so
`length - i` bounds the fuel it needs: the Python `while` loop of
`minify_js` terminates and never reads out of range. -/
theorem tokLoop_some (content : List Char) :
    ∀ fuel, ∀ i st result, content.length - i < fuel →
      ∃ r, tokLoop content fuel i st result = some r := by
  intro fuel
  induction fuel with
  | zero => intro i st result h; omega
  | succ f ih =>
    intro i st result h
    rw [tokLoop]
    cases hget : content.get? i with
    | none => exact ⟨result, rfl⟩
    | some c =>
      have hi : i < content.length := by
        by_contra h'
        rw [List.get?_eq_none.2 (by omega)] at hget
        exact Option.noConfusion hget
      cases st with
      | inStr d =>
        simp only
        split_ifs <;> exact ih _ _ _ (by omega)
      | lineComment =>
        simp only
        split_ifs <;> exact ih _ _ _ (by omega)
      | blockComment =>
        simp only
        split_ifs <;> exact ih _ _ _ (by omega)
      | normal =>
        simp only
        split_ifs <;> exact ih _ _ _ (by omega)

/-- The tokenizing pass always returns a result. -/
theorem js_tokenize_some (content : String) : ∃ r, js_tokenize content = some r :=
  tokLoop_some content.data (content.data.length + 1) 0 JsState.normal [] (by omega)

/-- `minify_js` always returns a result. -/
theorem minify_js_some (content : String) : ∃ r, minify_js content = some r := by
  obtain ⟨t, ht⟩ := js_tokenize_some content
  exact ⟨_, by rw [minify_js, ht]; rfl⟩

/-- A stored-block stream is at least as long as its payload. -/
theorem deflateStored_length (x : List Nat) : x.length ≤ (deflateStored x).length := by
  rw [deflateStored]
  split_ifs with h
  · simp only [List.isEmpty_iff, List.drop_eq_nil_iff] at h
    simp only [List.length_append, List.length_take, List.length_cons]
    omega
  · have h' : ¬ x.length ≤ 65535 := by
      simp only [List.isEmpty_iff, List.drop_eq_nil_iff] at h
      omega
    have ih := deflateStored_length (x.drop 65535)
    simp only [List.length_append, List.length_take, List.length_cons,
      List.length_drop] at ih ⊢
    omega
termination_by x.length
decreasing_by
  simp only [List.length_drop]
  omega

/-- Inflating a stored-block stream recovers the payload and leaves the
suffix, for any fuel exceeding the payload length. -/
theorem inflate_deflate :
    ∀ fuel (x suffix : List Nat), x.length < fuel →
      inflateStored fuel (deflateStored x ++ suffix) = some (x, suffix) := by
  intro fuel
  induction fuel with
  | zero => intro x suffix h; omega
  | succ f ih =>
    intro x suffix h
    rw [deflateStored]
    split_ifs with hfin
    · -- final stored block: the whole of x fits in one chunk
      have hlen : x.length ≤ 65535 := by
        simpa only [List.isEmpty_iff, List.drop_eq_nil_iff] using hfin
      have htake : x.take 65535 = x := List.take_of_length_le hlen
      rw [htake]
      simp only [List.cons_append, List.nil_append, List.append_assoc]
      rw [inflateStored]
      rw [if_pos ⟨Or.inr rfl, rfl, rfl, by
        simp only [List.length_append]
        omega⟩]
      rw [if_pos rfl]
      have hl : x.length % 256 + 256 * (x.length / 256) = x.length := by omega
      rw [hl, List.take_left, List.drop_left]
    · -- non-final block: 65535 bytes, then the rest of the stream
      have hlen : 65535 < x.length := by
        simp only [List.isEmpty_iff, List.drop_eq_nil_iff, not_le] at hfin
        omega
      have htake : (x.take 65535).length = 65535 := by
        simp only [List.length_take]
        omega
      simp only [List.cons_append, List.nil_append, List.append_assoc]
      rw [inflateStored]
      rw [if_pos ⟨Or.inl rfl, by norm_num, by norm_num, by
        simp only [List.length_append, htake]
        omega⟩]
      rw [if_neg (by omega)]
      have hl : (255 : Nat) + 256 * 255 = (x.take 65535).length := by
        rw [htake]
      rw [hl, List.take_left, List.drop_left]
      rw [ih (x.drop 65535) suffix (by
        simp only [List.length_drop]
        omega)]
      simp only [List.take_append_drop]

/-- Decompressing a compressed stream recovers the input exactly,
whatever the clock read. -/
theorem gunzip_gzip_compress (mtime : Nat) (x : List Nat) :
    gunzip (gzip_compress mtime x) = some x := by
  rw [gzip_compress, createGzipHeader]
  simp only [le32, List.cons_append, List.nil_append, reduceIte]
  rw [gunzip]
  have hfuel : x.length <
      (deflateStored x ++
        ((crc32 x) % 256 :: (crc32 x) / 256 % 256 :: (crc32 x) / 65536 % 256 ::
          (crc32 x) / 16777216 % 256 :: (x.length % 4294967296) % 256 ::
          (x.length % 4294967296) / 256 % 256 :: (x.length % 4294967296) / 65536 % 256 ::
          (x.length % 4294967296) / 16777216 % 256 :: [])).length + 1 := by
    have hd := deflateStored_length x
    simp only [List.length_append, List.length_cons, List.length_nil]
    omega
  have hrt := inflate_deflate
    ((deflateStored x ++
        ((crc32 x) % 256 :: (crc32 x) / 256 % 256 :: (crc32 x) / 65536 % 256 ::
          (crc32 x) / 16777216 % 256 :: (x.length % 4294967296) % 256 ::
          (x.length % 4294967296) / 256 % 256 :: (x.length % 4294967296) / 65536 % 256 ::
          (x.length % 4294967296) / 16777216 % 256 :: [])).length + 1) x
    ((crc32 x) % 256 :: (crc32 x) / 256 % 256 :: (crc32 x) / 65536 % 256 ::
      (crc32 x) / 16777216 % 256 :: (x.length % 4294967296) % 256 ::
      (x.length % 4294967296) / 256 % 256 :: (x.length % 4294967296) / 65536 % 256 ::
      (x.length % 4294967296) / 16777216 % 256 :: []) hfuel
  rw [hrt]
  simp [le32]

/-- Invariant of the destination write loop, generalized over the
writes already performed: on success every path was written with the
artifact text; on a raised write error the loop stops at the first
failing path, having written exactly the paths before it. -/
theorem writeLoop_aux (wOk : String → Bool) (text : String) :
    ∀ (paths : List String) (acc : List (String × String)),
      match writeLoop wOk text acc paths with
      | Except.ok w => w = acc ++ paths.map (fun p => (p, text))
      | Except.error (p, w) =>
        wOk p = false ∧ ∃ pre post, paths = pre ++ p :: post ∧
          (∀ q ∈ pre, wOk q = true) ∧ w = acc ++ pre.map (fun q => (q, text)) := by
  intro paths
  induction paths with
  | nil => intro acc; simp [writeLoop]
  | cons p rest ih =>
    intro acc
    rw [writeLoop]
    by_cases hp : wOk p
    · rw [if_pos hp]
      have h2 := ih (acc ++ [(p, text)])
      cases hw : writeLoop wOk text (acc ++ [(p, text)]) rest with
      | ok w =>
        rw [hw] at h2
        simp only at h2 ⊢
        rw [h2]
        simp [List.append_assoc]
      | error e =>
        obtain ⟨q, w⟩ := e
        rw [hw] at h2
        simp only at h2 ⊢
        obtain ⟨hq, pre, post, hsplit, hpre, hw'⟩ := h2
        refine ⟨hq, p :: pre, post, by rw [hsplit]; rfl, ?_, ?_⟩
        · intro q' hq'
          rcases List.mem_cons.1 hq' with h | h
          · rw [h]; exact hp
          · exact hpre q' h
        · rw [hw']
          simp [List.append_assoc]
    · rw [if_neg hp]
      simp only
      refine ⟨Bool.not_eq_true _ ▸ Bool.of_not_eq_true hp, [], rest, rfl, ?_, by simp⟩
      intro q hq
      exact absurd hq (List.not_mem_nil q)

/-- `process_asset` always returns a record (its only fallible part is
the JS tokenizer, which `minify_js_some` covers). -/
theorem process_asset_some (mtime : Nat) (fn c : String) :
    ∃ o m g, process_asset mtime fn c = some (o, m, g) := by
  simp only [process_asset]
  split_ifs with h1 h2 h3
  · obtain ⟨r, hr⟩ := minify_js_some c
    rw [hr]
    exact ⟨_, _, _, rfl⟩
  · exact ⟨_, _, _, rfl⟩
  · exact ⟨_, _, _, rfl⟩
  · exact ⟨_, _, _, rfl⟩

/-- The asset-processing loop always completes. -/
theorem buildProcessed_some (mtime : Nat) :
    ∀ (reg : List AssetEntry) (d : ProcDict),
      ∃ d', buildProcessed mtime d reg = some d' := by
  intro reg
  induction reg with
  | nil => intro d; exact ⟨d, rfl⟩
  | cons e rest ih =>
    intro d
    obtain ⟨o, m, g, hp⟩ := process_asset_some mtime e.filename e.content
    rw [buildProcessed, hp]
    exact ih _

/-- Keys no registry entry writes are untouched by the processing loop. -/
theorem buildProcessed_frame (mtime : Nat) :
    ∀ (reg : List AssetEntry) (d d' : ProcDict),
      buildProcessed mtime d reg = some d' →
      ∀ k, (∀ e ∈ reg, e.filename ≠ k) → d' k = d k := by
  intro reg
  induction reg with
  | nil =>
    intro d d' h k _
    rw [buildProcessed] at h
    cases h
    rfl
  | cons e rest ih =>
    intro d d' h k hk
    rw [buildProcessed] at h
    cases hp : process_asset mtime e.filename e.content with
    | none =>
      rw [hp] at h
      exact absurd h (by simp)
    | some r =>
      obtain ⟨o, m, g⟩ := r
      rw [hp] at h
      have hrec := ih _ _ h k (fun e' he' => hk e' (List.mem_cons_of_mem _ he'))
      rw [hrec]
      exact if_neg (fun h' => hk e (List.mem_cons_self e rest) h'.symm)

/-- With distinct filenames, the `processed_assets` dict maps each
entry's filename to that entry's own processing record. -/
theorem buildProcessed_lookup (mtime : Nat) :
    ∀ (reg : List AssetEntry) (d d' : ProcDict),
      (reg.map AssetEntry.filename).Nodup →
      buildProcessed mtime d reg = some d' →
      ∀ e ∈ reg, ∃ o m g,
        process_asset mtime e.filename e.content = some (o, m, g) ∧
        d' e.filename = some (e.sym, o, m, g) := by
  intro reg
  induction reg with
  | nil =>
    intro d d' _ _ e he
    exact absurd he (List.not_mem_nil e)
  | cons e0 rest ih =>
    intro d d' hnd h e he
    rw [buildProcessed] at h
    obtain ⟨o, m, g, hp⟩ := process_asset_some mtime e0.filename e0.content
    rw [hp] at h
    rw [List.map_cons, List.nodup_cons] at hnd
    rcases List.mem_cons.1 he with rfl | he'
    · refine ⟨o, m, g, hp, ?_⟩
      have hframe := buildProcessed_frame mtime rest _ _ h e.filename ?_
      · rw [hframe]
        simp
      · intro e' he' heq
        exact hnd.1 (heq ▸ List.mem_map_of_mem AssetEntry.filename he')
    · exact ih _ _ hnd.2 h e he'

/-- The declaration loop renders exactly one `declBlock` per registry
entry, in registry order. -/
theorem genDecls_eq (mtime : Nat) :
    ∀ (reg : List AssetEntry) (d : ProcDict),
      (∀ e ∈ reg, ∃ o m g,
        process_asset mtime e.filename e.content = some (o, m, g) ∧
        d e.filename = some (e.sym, o, m, g)) →
      genDecls d reg = some ((reg.map (declBlock mtime)).flatten) := by
  intro reg
  induction reg with
  | nil => intro d _; simp [genDecls]
  | cons e rest ih =>
    intro d hd
    obtain ⟨o, m, g, hp, hdk⟩ := hd e (List.mem_cons_self e rest)
    have hdb : declBlock mtime e =
        ["", "// " ++ e.filename ++ ": original " ++ toString o ++ " -> minified "
            ++ toString m ++ " -> gzip " ++ toString g.length ++ " bytes",
         "extern const uint8_t " ++ e.sym ++ "[] PROGMEM;",
         "extern const size_t " ++ e.sym ++ "_LEN;"] := by
      rw [declBlock, hp]
    rw [genDecls, hdk, ih d (fun e' he' => hd e' (List.mem_cons_of_mem _ he'))]
    rw [List.map_cons, List.flatten_cons, hdb]
    rfl

/-- The definition loop renders exactly one `defBlock` per registry
entry, in registry order. -/
theorem genDefs_eq (mtime : Nat) :
    ∀ (reg : List AssetEntry) (d : ProcDict),
      (∀ e ∈ reg, ∃ o m g,
        process_asset mtime e.filename e.content = some (o, m, g) ∧
        d e.filename = some (e.sym, o, m, g)) →
      genDefs d reg = some ((reg.map (defBlock mtime)).flatten) := by
  intro reg
  induction reg with
  | nil => intro d _; simp [genDefs]
  | cons e rest ih =>
    intro d hd
    obtain ⟨o, m, g, hp, hdk⟩ := hd e (List.mem_cons_self e rest)
    have hdb : defBlock mtime e =
        ["", "const uint8_t " ++ e.sym ++ "[] PROGMEM = \x7b",
         "        " ++ to_c_array g,
         "\x7d;",
         "const size_t " ++ e.sym ++ "_LEN = sizeof(" ++ e.sym ++ ");"] := by
      rw [defBlock, hp]
    rw [genDefs, hdk, ih d (fun e' he' => hd e' (List.mem_cons_of_mem _ he'))]
    rw [List.map_cons, List.flatten_cons, hdb]
    rfl

/-! ## Claims -/

/-- C1: the claim says the compressor is deterministic — two calls to
compress on the same bytes return byte-identical output.  It is not:
`embed_webui.py` line 330 fixes only `compresslevel`, and CPython's
`gzip.compress` then writes the current wall-clock second into the
MTIME field (bytes 4-7) of the gzip header, so compressing the very
same bytes at two different seconds yields different output, here shown
on the empty byte sequence at clock reads 0 and 1. -/
theorem gzip_compress_clock_dependent : gzip_compress 0 [] ≠ gzip_compress 1 [] := by
  unfold gzip_compress deflateStored
  decide

/-- C2 counterexample: the claim says the full script minification
retains the literal contents `a ; b`, whitespace included, inside the
string delimiters.  It does not: the whole minified output of
`var s = "a ; b";` is `var s="a;b";`, and `a ; b` occurs nowhere in
it — the punctuation pass of line 92 runs over the flattened text,
string contents included, and deletes the whitespace around the `;`. -/
theorem js_string_literal_altered :
    minify_js "var s = \"a ; b\";" = some "var s=\"a;b\";" ∧
    hasInfix "a ; b".data "var s=\"a;b\";".data = false := by
  constructor
  · decide
  · decide

/-- C2 amended: the tokenizing pass alone (lines 17-89) does retain
`a ; b` verbatim inside the string delimiters, but the subsequent
normalization passes collapse the whitespace around the `;` inside the
string, so the full minification returns `var s="a;b";`. -/
theorem js_string_literal_tokenizing :
    js_tokenize "var s = \"a ; b\";" = some ("var s = \"a ; b\";".data) ∧
    minify_js "var s = \"a ; b\";" = some "var s=\"a;b\";" := by
  constructor
  · decide
  · decide

/-- C3: decompressing the compressor's output with a standard gzip
decoder yields exactly the input, for every byte sequence (the empty
one included) and whatever second the clock read; hence the stored
compressed bytes of every asset decompress to the minified bytes. -/
theorem gzip_roundtrip (mtime : Nat) (x : List Nat) :
    gunzip (gzip_compress mtime x) = some x :=
  gunzip_gzip_compress mtime x

/-- C3 witness: the round-trip at a concrete clock and byte sequence. -/
theorem gzip_roundtrip_witness :
    gunzip (gzip_compress 99 [0, 200, 31, 31]) = some [0, 200, 31, 31] :=
  gzip_roundtrip 99 [0, 200, 31, 31]

/-- C4: the destination write loop either writes the identical artifact
text to every destination (success) or stops at the first failing
destination with the failure surfaced as a raised error, the
destinations before it written and the ones after it untouched — it
never silently continues past a failed write. -/
theorem write_all_or_error_surfaced (wOk : String → Bool) (out_text : String)
    (paths : List String) :
    match writeLoop wOk out_text [] paths with
    | Except.ok w => w = paths.map (fun p => (p, out_text))
    | Except.error (p, w) =>
      wOk p = false ∧ ∃ pre post, paths = pre ++ p :: post ∧
        (∀ q ∈ pre, wOk q = true) ∧ w = pre.map (fun q => (q, out_text)) := by
  simpa using writeLoop_aux wOk out_text paths []

/-- C4 witness: with destinations `a`, `b`, `c` and `b` failing, the
loop raises at `b` having written exactly `a`. -/
theorem write_all_or_error_surfaced_witness :
    match writeLoop (fun p => !(p == "b")) "T" [] ["a", "b", "c"] with
    | Except.ok w => w = ["a", "b", "c"].map (fun p => (p, "T"))
    | Except.error (p, w) =>
      (fun p => !(p == "b")) p = false ∧ ∃ pre post, ["a", "b", "c"] = pre ++ p :: post ∧
        (∀ q ∈ pre, (fun p => !(p == "b")) q = true) ∧
        w = pre.map (fun q => (q, "T")) :=
  write_all_or_error_surfaced (fun p => !(p == "b")) "T" ["a", "b", "c"]

/-- C5 counterexample: the claim says the empty asset embeds as a
zero-length byte array with length constant 0.  It does not: the
compressor wraps even an empty payload in its container (header, empty
DEFLATE stream, CRC and length trailer), so the embedded array — and
with it the length constant, defined as `sizeof` of that array — is the
container's size, not 0 (23 bytes in this stored-block model, 20 with
zlib's level-9 body). -/
theorem empty_asset_not_zero_length :
    process_asset 0 "index.html" "" = some (0, 0, gzip_compress 0 []) ∧
    (gzip_compress 0 []).length ≠ 0 := by
  constructor
  · rfl
  · unfold gzip_compress deflateStored
    decide

/-- C5 amended: minifying, compressing and encoding the empty asset
complete without error, with original and minified sizes 0; but the
byte array embedded in the artifact is the compressor's container for
the empty sequence, which is not empty, and the length constant equals
that container's size rather than 0. -/
theorem empty_asset_pipeline (mtime : Nat) :
    process_asset mtime "index.html" "" = some (0, 0, gzip_compress mtime []) ∧
    gzip_compress mtime [] ≠ [] := by
  constructor
  · rfl
  · rw [gzip_compress, createGzipHeader]
    simp

/-- C5 amended witness: the pipeline record of the empty asset at a
concrete clock read. -/
theorem empty_asset_pipeline_witness :
    process_asset 7 "index.html" "" = some (0, 0, gzip_compress 7 []) ∧
    gzip_compress 7 [] ≠ [] :=
  empty_asset_pipeline 7

/-- C6: for every asset registry with distinct filenames, the artifact
is the fixed preamble, then one declaration block per registry entry in
exactly registry order, then the definitions marker, then one
definition block per entry in the same registry order — nothing is
reordered or sorted. -/
theorem header_registry_order (mtime : Nat) (reg : List AssetEntry)
    (hnd : (reg.map AssetEntry.filename).Nodup) :
    generate_header mtime reg =
      some (headerPreamble ++ (reg.map (declBlock mtime)).flatten ++
        ["", "// Definitions"] ++ (reg.map (defBlock mtime)).flatten) := by
  obtain ⟨d', hbp⟩ := buildProcessed_some mtime reg (fun _ => none)
  have hlk := buildProcessed_lookup mtime reg _ _ hnd hbp
  rw [generate_header, hbp]
  simp only [Option.bind_eq_bind, Option.some_bind]
  rw [genDecls_eq mtime reg d' hlk]
  simp only [Option.some_bind]
  rw [genDefs_eq mtime reg d' hlk]
  simp only [Option.some_bind, List.append_assoc]
  rfl

/-- C6 witness: the registry of embed_webui.py line 260 with sample
contents has distinct filenames, and its artifact is preamble,
declaration blocks in registry order, marker, definition blocks in
registry order. -/
theorem header_registry_order_witness :
    (([⟨"index.html", "WEBUI_HTML_GZ", "<p>hi</p>"⟩,
       ⟨"style.css", "WEBUI_CSS_GZ", "a : b ;"⟩,
       ⟨"app.js", "WEBUI_JS_GZ", "var x = 1;"⟩] :
        List AssetEntry).map AssetEntry.filename).Nodup ∧
    generate_header 3
        [⟨"index.html", "WEBUI_HTML_GZ", "<p>hi</p>"⟩,
         ⟨"style.css", "WEBUI_CSS_GZ", "a : b ;"⟩,
         ⟨"app.js", "WEBUI_JS_GZ", "var x = 1;"⟩] =
      some (headerPreamble ++
        (([⟨"index.html", "WEBUI_HTML_GZ", "<p>hi</p>"⟩,
           ⟨"style.css", "WEBUI_CSS_GZ", "a : b ;"⟩,
           ⟨"app.js", "WEBUI_JS_GZ", "var x = 1;"⟩] :
            List AssetEntry).map (declBlock 3)).flatten ++
        ["", "// Definitions"] ++
        (([⟨"index.html", "WEBUI_HTML_GZ", "<p>hi</p>"⟩,
           ⟨"style.css", "WEBUI_CSS_GZ", "a : b ;"⟩,
           ⟨"app.js", "WEBUI_JS_GZ", "var x = 1;"⟩] :
            List AssetEntry).map (defBlock 3)).flatten) :=
  ⟨by decide, header_registry_order 3 _ (by decide)⟩

/-- C7: minification reinserts exactly one space after the reserved
word in `return-1;`, giving `return -1;`, and inserts none in `x-1;`. -/
theorem js_keyword_spacing :
    minify_js "return-1;" = some "return -1;" ∧ minify_js "x-1;" = some "x-1;" := by
  constructor
  · decide
  · decide

/-- C8: the script minifier is total — for every input string,
including one ending inside a string literal or comment or on a
trailing backslash, minification terminates with a result and signals
no error (the tokenizing loop advances its index every iteration, so
`length + 1` fuel never runs out). -/
theorem minify_js_never_raises (content : String) :
    ∃ r, minify_js content = some r :=
  minify_js_some content

/-- C8 witness: an input that ends with a backslash inside an
unterminated string literal still minifies to a result. -/
theorem minify_js_never_raises_witness :
    ∃ r, minify_js "var s=\"a\\" = some r :=
  minify_js_never_raises "var s=\"a\\"

/-- C9: markup minification removes `<!-- note -->` entirely but keeps
the conditional comment `<!--[if IE]>x<![endif]-->` verbatim. -/
theorem html_conditional_comment :
    minify_html "<!-- note -->" = "" ∧
    minify_html "<!--[if IE]>x<![endif]-->" = "<!--[if IE]>x<![endif]-->" := by
  constructor
  · decide
  · decide

/-- C10: on `a{b:c;;}` the single non-overlapping `;}` pass removes
only the semicolon adjacent to the brace, yielding `a{b:c;}` — not
`a{b:c}` — so outputs can still contain `;` directly before a brace. -/
theorem css_semicolon_single_pass :
    minify_css (String.mk ("a".data ++ [lbrace] ++ "b:c;;".data ++ [rbrace]))
      = String.mk ("a".data ++ [lbrace] ++ "b:c;".data ++ [rbrace]) ∧
    minify_css (String.mk ("a".data ++ [lbrace] ++ "b:c;;".data ++ [rbrace]))
      ≠ String.mk ("a".data ++ [lbrace] ++ "b:c".data ++ [rbrace]) := by
  constructor
  · decide
  · decide

end EmbedWebui
